import Mathlib

/-!
# Verification of the unbored activity-list application

A shallow embedding of the core of the `unbored` terminal application:

* the persistence codec (`Activity.as_dict` / `Activity.from_dict`,
  `Main.save_activity_list` / `Main.load_activity_list`), working over a JSON
  document AST — the JSON surface syntax itself is handled by the external
  `json` library and is outside the embedding;
* the list-reordering operations (`Activity.action_move_up` /
  `Activity.action_move_down`, via the widget framework `move_child`
  remove-and-reinsert semantics);
* the filter model (`Filters.participants`, `Filters._min_max_value`,
  `Filters.price`, `Filters.accessibility`) and the request-option builder of
  `Main.on_button_pressed`;
* a state machine for the main screen: in-memory activity list, persisted
  document, focus owner and the transient notice, driven by the events the
  source handles.

Python floats are modelled as exact rationals; Python `datetime` values as a
record of calendar fields with microsecond precision, together with the
`isoformat` / `fromisoformat` string codec.
-/

/-! ## Fixed-width decimal fields

`datetime.isoformat` renders every numeric field zero-padded to a fixed
width; `datetime.fromisoformat` reads the fields back.  `padNum w n` is the
`w`-digit zero-padded rendering of `n`; `readFixed w acc cs` consumes exactly
`w` digit characters of `cs`, accumulating into `acc`. -/

def padNum : Nat → Nat → List Char
  | 0, _ => []
  | w + 1, n => Nat.digitChar (n / 10 ^ w) :: padNum w (n % 10 ^ w)

def readFixed : Nat → Nat → List Char → Option (Nat × List Char)
  | 0, acc, cs => some (acc, cs)
  | _ + 1, _, [] => none
  | w + 1, acc, c :: cs =>
      if c.isDigit then readFixed w (acc * 10 + (c.toNat - 48)) cs else none

theorem digitChar_isDigit : ∀ d, d < 10 → (Nat.digitChar d).isDigit = true := by
  decide

theorem digitChar_toNat : ∀ d, d < 10 → (Nat.digitChar d).toNat - 48 = d := by
  decide

theorem readFixed_padNum (w : Nat) : ∀ n acc : Nat, n < 10 ^ w →
    ∀ rest : List Char,
      readFixed w acc (padNum w n ++ rest) = some (acc * 10 ^ w + n, rest) := by
  induction w with
  | zero =>
    intro n acc h rest
    simp only [pow_zero, Nat.lt_one_iff] at h
    simp [padNum, readFixed, h]
  | succ w ih =>
    intro n acc h rest
    have h10 : 0 < 10 ^ w := pow_pos (by norm_num) w
    have hd : n / 10 ^ w < 10 := by
      apply Nat.div_lt_of_lt_mul
      calc n < 10 ^ (w + 1) := h
        _ = 10 ^ w * 10 := by rw [pow_succ]
    simp only [padNum, List.cons_append, readFixed, digitChar_isDigit _ hd,
      if_true, digitChar_toNat _ hd, List.append_eq]
    rw [ih (n % 10 ^ w) _ (Nat.mod_lt _ h10) rest]
    have hmod : 10 ^ w * (n / 10 ^ w) + n % 10 ^ w = n := Nat.div_add_mod n (10 ^ w)
    have harith : (acc * 10 + n / 10 ^ w) * 10 ^ w + n % 10 ^ w
        = acc * 10 ^ (w + 1) + n := by
      rw [pow_succ]
      nlinarith [hmod]
    rw [harith]

theorem readFixed_padNum_nil (w n acc : Nat) (h : n < 10 ^ w) :
    readFixed w acc (padNum w n) = some (acc * 10 ^ w + n, []) := by
  have := readFixed_padNum w n acc h []
  simpa using this

/-! ## Python `datetime`

`Activity.chosen_at` is a Python `datetime`.  The constructor (and hence
`fromisoformat`) validates the calendar fields, so every reachable value
satisfies `PyDateTime.valid`.  `isoformat` renders
`YYYY-MM-DDTHH:MM:SS[.ffffff]`, omitting the fractional part when the
microsecond field is zero; `fromisoformat` parses that shape back. -/

structure PyDateTime where
  year : Nat
  month : Nat
  day : Nat
  hour : Nat
  minute : Nat
  second : Nat
  microsecond : Nat
deriving DecidableEq, Repr

def isLeapYear (y : Nat) : Bool :=
  y % 4 = 0 && (y % 100 ≠ 0 || y % 400 = 0)

def daysInMonth (y m : Nat) : Nat :=
  if m = 2 then (if isLeapYear y then 29 else 28)
  else if m = 4 ∨ m = 6 ∨ m = 9 ∨ m = 11 then 30
  else 31

def PyDateTime.valid (d : PyDateTime) : Bool :=
  1 ≤ d.year && d.year ≤ 9999 &&
  1 ≤ d.month && d.month ≤ 12 &&
  1 ≤ d.day && d.day ≤ daysInMonth d.year d.month &&
  d.hour ≤ 23 && d.minute ≤ 59 && d.second ≤ 59 && d.microsecond ≤ 999999

/-- The fractional-second suffix of `isoformat`: omitted when the microsecond
field is zero, otherwise a dot and six zero-padded digits. -/
def microTail (us : Nat) : List Char :=
  if us = 0 then [] else '.' :: padNum 6 us

def isoformat (d : PyDateTime) : List Char :=
  padNum 4 d.year ++ '-' :: padNum 2 d.month ++ '-' :: padNum 2 d.day ++
  'T' :: padNum 2 d.hour ++ ':' :: padNum 2 d.minute ++ ':' :: padNum 2 d.second ++
  microTail d.microsecond

/-- Consume one expected separator character. -/
def expectChar (c : Char) : List Char → Option (List Char)
  | d :: cs => if d = c then some cs else none
  | [] => none

/-- Parse the fractional-seconds tail: either nothing (microsecond zero) or a
dot followed by six digits. -/
def readMicro : List Char → Option (Nat × List Char)
  | [] => some (0, [])
  | c :: rest => if c = '.' then readFixed 6 0 rest else none

/-- Parse the `HH:MM:SS[.ffffff]` time-of-day part. -/
def readTime (cs : List Char) : Option (Nat × Nat × Nat × Nat × List Char) :=
  (readFixed 2 0 cs).bind fun h =>
  (expectChar ':' h.2).bind fun cs =>
  (readFixed 2 0 cs).bind fun mi =>
  (expectChar ':' mi.2).bind fun cs =>
  (readFixed 2 0 cs).bind fun sec =>
  (readMicro sec.2).map fun us => (h.1, mi.1, sec.1, us.1, us.2)

/-- Parse the `YYYY-MM-DD` date part. -/
def readDate (cs : List Char) : Option (Nat × Nat × Nat × List Char) :=
  (readFixed 4 0 cs).bind fun y =>
  (expectChar '-' y.2).bind fun cs =>
  (readFixed 2 0 cs).bind fun mo =>
  (expectChar '-' mo.2).bind fun cs =>
  (readFixed 2 0 cs).map fun dy => (y.1, mo.1, dy.1, dy.2)

def fromisoformat (cs : List Char) : Option PyDateTime :=
  (readDate cs).bind fun date =>
  (expectChar 'T' date.2.2.2).bind fun cs =>
  (readTime cs).bind fun time =>
  let d : PyDateTime :=
    ⟨date.1, date.2.1, date.2.2.1, time.1, time.2.1, time.2.2.1, time.2.2.2.1⟩
  if time.2.2.2.2 = [] && d.valid then some d else none

theorem expectChar_cons (c : Char) (cs : List Char) : expectChar c (c :: cs) = some cs := by
  simp [expectChar]

theorem readMicro_microTail (us : Nat) (h : us < 10 ^ 6) :
    readMicro (microTail us) = some (us, []) := by
  unfold microTail readMicro
  by_cases hzero : us = 0
  · simp [hzero]
  · simp [hzero, readFixed_padNum_nil 6 us 0 h]

theorem readDate_padNum (y mo dy : Nat) (hy : y < 10 ^ 4) (hmo : mo < 10 ^ 2)
    (hdy : dy < 10 ^ 2) (rest : List Char) :
    readDate (padNum 4 y ++ '-' :: (padNum 2 mo ++ '-' :: (padNum 2 dy ++ rest)))
      = some (y, mo, dy, rest) := by
  simp [readDate, readFixed_padNum 4 y 0 hy, readFixed_padNum 2 mo 0 hmo,
        readFixed_padNum 2 dy 0 hdy, expectChar_cons]

theorem readTime_padNum (h mi sec us : Nat) (hh : h < 10 ^ 2) (hmi : mi < 10 ^ 2)
    (hsec : sec < 10 ^ 2) (hus : us < 10 ^ 6) :
    readTime (padNum 2 h ++ ':' :: (padNum 2 mi ++ ':' :: (padNum 2 sec ++ microTail us)))
      = some (h, mi, sec, us, []) := by
  simp [readTime, readFixed_padNum 2 h 0 hh, readFixed_padNum 2 mi 0 hmi,
        readFixed_padNum 2 sec 0 hsec, expectChar_cons, readMicro_microTail us hus]

theorem fromisoformat_isoformat (d : PyDateTime) (h : d.valid = true) :
    fromisoformat (isoformat d) = some d := by
  obtain ⟨y, mo, dy, hr, mi, sec, us⟩ := d
  have hfields := h
  simp only [PyDateTime.valid, Bool.and_eq_true, decide_eq_true_eq] at hfields
  obtain ⟨⟨⟨⟨⟨⟨⟨⟨⟨hy1, hy2⟩, hm1⟩, hm2⟩, hd1⟩, hd2⟩, hh⟩, hmi⟩, hs⟩, hus⟩ := hfields
  have hdmax : daysInMonth y mo ≤ 31 := by
    unfold daysInMonth
    split <;> [split <;> omega; (split <;> omega)]
  have hy : y < 10 ^ 4 := by omega
  have hmo : mo < 10 ^ 2 := by omega
  have hdy : dy < 10 ^ 2 := by omega
  have hhr : hr < 10 ^ 2 := by omega
  have hmin : mi < 10 ^ 2 := by omega
  have hsec : sec < 10 ^ 2 := by omega
  have husec : us < 10 ^ 6 := by omega
  simp [isoformat, fromisoformat, readDate_padNum y mo dy hy hmo hdy,
        readTime_padNum hr mi sec us hhr hmin hsec husec, expectChar_cons, h]

/-! ## Python numeric parsing

`Filters.participants` calls `int(text.strip())`, `Filters._min_max_value`
calls `float(text.strip())`, treating a `ValueError` as an absent value.
`readDigits` reads a maximal run of decimal digits, returning the value, the
digit count and the remaining characters.  The modelled grammar is sign plus
decimal digits (with an optional fractional part for floats); the exponent,
infinity, nan and underscore refinements of the Python grammar are not used
by any claim and are left out.  Python floats are modelled as exact
rationals. -/

/-- Python `str.strip()`: drop leading and trailing whitespace. -/
def pyStrip (cs : List Char) : List Char :=
  ((cs.dropWhile Char.isWhitespace).reverse.dropWhile Char.isWhitespace).reverse

def readDigits : List Char → Nat → Nat → Nat × Nat × List Char
  | [], acc, k => (acc, k, [])
  | c :: cs, acc, k =>
      if c.isDigit then readDigits cs (acc * 10 + (c.toNat - 48)) (k + 1)
      else (acc, k, c :: cs)

/-- Unsigned part of `int(...)`: digits with nothing left over. -/
def pyIntMag (cs : List Char) : Option Int :=
  let r := readDigits cs 0 0
  if r.2.2 = [] ∧ r.2.1 ≠ 0 then some (r.1 : Int) else none

/-- `int(text)` for already-stripped text, `none` for `ValueError`. -/
def pyInt? (text : List Char) : Option Int :=
  match text with
  | '+' :: cs => pyIntMag cs
  | '-' :: cs => (pyIntMag cs).map Neg.neg
  | cs => pyIntMag cs

/-- Unsigned part of `float(...)`: `digits`, `digits.digits`, `digits.` or
`.digits`, needing at least one digit overall. -/
def pyFloatMag (cs : List Char) : Option ℚ :=
  let ip := readDigits cs 0 0
  match ip.2.2 with
  | [] => if ip.2.1 ≠ 0 then some (mkRat ip.1 1) else none
  | c :: rest =>
      if c = '.' then
        let fp := readDigits rest 0 0
        if fp.2.2 = [] ∧ ip.2.1 + fp.2.1 ≠ 0 then
          some (mkRat (ip.1 * 10 ^ fp.2.1 + fp.1) (10 ^ fp.2.1))
        else none
      else none

/-- `float(text)` for already-stripped text, `none` for `ValueError`. -/
def pyFloat? (text : List Char) : Option ℚ :=
  match text with
  | '+' :: cs => pyFloatMag cs
  | '-' :: cs => (pyFloatMag cs).map Neg.neg
  | cs => pyFloatMag cs

/-! ## The filter model (`filters.py`)

`FilterInputs` holds the raw text of the five filter input widgets, keyed by
their DOM ids.  The functions below are the `participants`, `price` and
`accessibility` properties of the `Filters` widget. -/

structure FilterInputs where
  participants : String
  min_price : String
  max_price : String
  min_accessibility : String
  max_accessibility : String

namespace Filters

/-- `Filters.participants`: `int` of the stripped text when positive,
otherwise `None` (including on `ValueError`). -/
def participants (f : FilterInputs) : Option Int :=
  match pyInt? (pyStrip f.participants.data) with
  | some value => if value > 0 then some value else none
  | none => none

/-- `Filters.clamp`. -/
def clamp (value : Option ℚ) (min_val max_val : ℚ) : Option ℚ :=
  match value with
  | none => none
  | some v =>
      if v < min_val then some min_val
      else if v > max_val then some max_val
      else some v

/-- The nested `_value` helper of `Filters._min_max_value`: parse one float
input; a parse failure or a value at most zero counts as absent. -/
def value_of (raw : String) : Option ℚ :=
  match pyFloat? (pyStrip raw.data) with
  | some price => if price ≤ 0 then none else some price
  | none => none

/-- `Filters._min_max_value`: both entries parsed and clamped into `[0, 1]`;
when both are present and transposed, the pair is returned swapped. -/
def _min_max_value (minRaw maxRaw : String) : Option ℚ × Option ℚ :=
  let min_value := clamp (value_of minRaw) 0 1
  let max_value := clamp (value_of maxRaw) 0 1
  match min_value, max_value with
  | some a, some b => if b < a then (some b, some a) else (some a, some b)
  | _, _ => (min_value, max_value)

/-- `Filters.price`. -/
def price (f : FilterInputs) : Option ℚ × Option ℚ :=
  _min_max_value f.min_price f.max_price

/-- `Filters.accessibility`. -/
def accessibility (f : FilterInputs) : Option ℚ × Option ℚ :=
  _min_max_value f.min_accessibility f.max_accessibility

end Filters

/-! ## The request options built by `Main.on_button_pressed` -/

/-- The keyword options passed to `BoredClient.get`; a `none` field is a key
absent from the `options` dictionary. -/
structure RequestOptions where
  type : Option String
  participants : Option Int
  min_price : Option ℚ
  max_price : Option ℚ
  min_accessibility : Option ℚ
  max_accessibility : Option ℚ
deriving DecidableEq

/-- The option-building prefix of `Main.on_button_pressed`: the pressed type
button contributes `type` unless it is the `any` button, and each filter
property contributes its constraint only when present. -/
def buildOptions (buttonId : Option String) (f : FilterInputs) : RequestOptions :=
  let pr := Filters.price f
  let ac := Filters.accessibility f
  { type :=
      match buttonId with
      | some i => if i ≠ "any" then some i else none
      | none => none
    participants := Filters.participants f
    min_price := pr.1
    max_price := pr.2
    min_accessibility := ac.1
    max_accessibility := ac.2 }

/-! ## The persisted JSON document

The file holds one JSON array of activity objects.  The embedding works on a
JSON AST: the surface syntax is produced and parsed by the external `json`
library (`dumps` / `loads`), whose own syntax errors propagate to the caller
exactly like the shape errors modelled here.  Numbers are exact rationals. -/

inductive Json where
  | null
  | str (s : String)
  | num (q : ℚ)
  | arr (items : List Json)
  | obj (fields : List (String × Json))

/-- The `bored_api.ActivityType` enumeration; `value` is the wire string. -/
inductive ActivityType where
  | education
  | recreational
  | social
  | diy
  | charity
  | cooking
  | relaxation
  | music
  | busywork
deriving DecidableEq, Repr

def ActivityType.value : ActivityType → String
  | .education => "education"
  | .recreational => "recreational"
  | .social => "social"
  | .diy => "diy"
  | .charity => "charity"
  | .cooking => "cooking"
  | .relaxation => "relaxation"
  | .music => "music"
  | .busywork => "busywork"

/-- `ActivityType(code)`: the enum member with the given value, if any. -/
def ActivityType.ofValue? (s : String) : Option ActivityType :=
  if s = "education" then some .education
  else if s = "recreational" then some .recreational
  else if s = "social" then some .social
  else if s = "diy" then some .diy
  else if s = "charity" then some .charity
  else if s = "cooking" then some .cooking
  else if s = "relaxation" then some .relaxation
  else if s = "music" then some .music
  else if s = "busywork" then some .busywork
  else none

theorem ActivityType.ofValue_value (t : ActivityType) : ofValue? t.value = some t := by
  cases t <;> rfl

/-- The `bored_api.BoredActivity` record with the fields the persisted
document stores (spec section 6).  `bored_api` is an external collaborator
of the repository; the field set is the one the spec and the persisted
document use.  The dataclass constructor `BoredActivity(**data)` performs no
value-type validation, so every field except the converted type tag is
modelled as the JSON-representable Python value it holds; the API client
and the save image supply the well-typed values of the data model
(description string, counts and scores as numbers, link string or null). -/
structure BoredActivity where
  activity : Json
  type : ActivityType
  participants : Json
  price : Json
  accessibility : Json
  link : Json

/-- The state of one `Activity` widget: the suggestion plus the time it was
chosen (`chosen_at`). -/
structure Activity where
  activity : BoredActivity
  chosen_at : PyDateTime

/-- Every reachable `Activity` carries a constructible Python `datetime`. -/
def Activity.validDate (a : Activity) : Bool :=
  a.chosen_at.valid

/-- `Activity.as_dict` composed with `ActivityEncoder`: the JSON object saved
for one activity.  The encoder writes the type tag as its string value and
the timestamp as its `isoformat` string; every other field is serialised as
the JSON value it holds (an absent link is `null`). -/
def Activity.as_dict (a : Activity) : Json :=
  .obj [("activity", a.activity.activity),
        ("type", .str a.activity.type.value),
        ("participants", a.activity.participants),
        ("price", a.activity.price),
        ("accessibility", a.activity.accessibility),
        ("link", a.activity.link),
        ("chosen_at", .str ⟨isoformat a.chosen_at⟩)]

/-- `Main.save_activity_list`: the document is the array of the mounted
activities, in list order, rewritten whole. -/
def saveDoc (l : List Activity) : Json :=
  .arr (l.map Activity.as_dict)

/-- Dictionary lookup, `KeyError` when the key is missing. -/
def jLookup : List (String × Json) → String → Except String Json
  | [], key => .error ("KeyError: " ++ key)
  | p :: rest, key => if p.1 = key then .ok p.2 else jLookup rest key

def Json.asString : Json → Except String String
  | .str s => .ok s
  | _ => .error "TypeError: expected a string"

/-- `ActivityType(code)` as used by `load_activity_list`; an unknown code is
a `ValueError`. -/
def parseActivityType (s : String) : Except String ActivityType :=
  match ActivityType.ofValue? s with
  | some t => .ok t
  | none => .error "ValueError: not a valid ActivityType"

/-- `datetime.fromisoformat` as used by `Activity.from_dict`; a string that
does not parse is a `ValueError`.  The modelled grammar is the image of
`isoformat` (`YYYY-MM-DDTHH:MM:SS[.ffffff]`); the Python parser also accepts
further ISO-8601 forms (date-only, omitted seconds, other separators), so no
theorem in this development asserts a load error for a timestamp string
outside this grammar. -/
def fromisoformatStr (s : String) : Except String PyDateTime :=
  match fromisoformat s.data with
  | some d => .ok d
  | none => .error "ValueError: invalid isoformat string"

/-- One step of `Main.load_activity_list` plus `Activity.from_dict` on one
iterated entry: subscripting requires a dictionary (a `TypeError` on
anything else); `ActivityType(...)` requires a known type code (`ValueError`
otherwise, `KeyError` when the key is missing); `fromisoformat` requires a
parseable timestamp string; and `BoredActivity(**data)` requires exactly the
remaining field names while performing no value-type validation, so the
other five fields are taken as they stand.  The exact-key-set check is
performed up front; the order of the validations affects only which error is
reported, not which entries load. -/
def decodeActivity (j : Json) : Except String Activity :=
  match j with
  | .obj fields =>
      if fields.length = 7 then
        (jLookup fields "type").bind fun tj =>
        tj.asString.bind fun ts =>
        (parseActivityType ts).bind fun ty =>
        (jLookup fields "chosen_at").bind fun cj =>
        cj.asString.bind fun cstr =>
        (fromisoformatStr cstr).bind fun chosen =>
        (jLookup fields "activity").bind fun act =>
        (jLookup fields "participants").bind fun parts =>
        (jLookup fields "price").bind fun price =>
        (jLookup fields "accessibility").bind fun access =>
        (jLookup fields "link").bind fun link =>
        .ok ⟨⟨act, ty, parts, price, access, link⟩, chosen⟩
      else .error "TypeError: unexpected or missing keyword arguments"
  | _ => .error "TypeError: an activity entry is not subscriptable by key"

def decodeList : List Json → Except String (List Activity)
  | [] => .ok []
  | j :: js =>
      (decodeActivity j).bind fun a =>
      (decodeList js).bind fun rest =>
      .ok (a :: rest)

/-- Python iteration, as in `for activity in loads(...)`: a list yields its
elements, a dictionary yields its keys (strings), a string yields its
characters (one-character strings); `null` and numbers are not iterable and
raise `TypeError`. -/
def pyIterate : Json → Except String (List Json)
  | .arr items => .ok items
  | .obj fields => .ok (fields.map fun p => Json.str p.1)
  | .str s => .ok (s.data.map fun c => Json.str ⟨[c]⟩)
  | .null => .error "TypeError: object is not iterable"
  | .num _ => .error "TypeError: object is not iterable"

/-- The body of `Main.load_activity_list` on an existing document: the
`for` loop iterates whatever `loads` returned and converts each entry. -/
def loadDoc (j : Json) : Except String (List Activity) :=
  (pyIterate j).bind fun items => decodeList items

/-- `Main.load_activity_list`: a missing file mounts nothing (empty list);
an existing document is iterated and decoded, any failure propagating to the
caller. -/
def loadFile : Option Json → Except String (List Activity)
  | none => .ok []
  | some j => loadDoc j

theorem Except.bind_ok_iff {ε α β : Type} (x : Except ε α) (f : α → Except ε β) (b : β) :
    x.bind f = .ok b ↔ ∃ a, x = .ok a ∧ f a = .ok b := by
  cases x <;> simp [Except.bind]

theorem decodeActivity_as_dict (a : Activity) (h : a.validDate = true) :
    decodeActivity a.as_dict = .ok a := by
  obtain ⟨⟨act, ty, parts, price, acc, link⟩, chosen⟩ := a
  have hdt : fromisoformat (isoformat chosen) = some chosen :=
    fromisoformat_isoformat chosen h
  cases ty <;>
    simp [decodeActivity, Activity.as_dict, jLookup, Json.asString,
          parseActivityType, ActivityType.ofValue?, ActivityType.value,
          fromisoformatStr, hdt, Except.bind]

theorem loadFile_saveDoc (L : List Activity) (h : ∀ a ∈ L, a.validDate = true) :
    loadFile (some (saveDoc L)) = .ok L := by
  induction L with
  | nil => rfl
  | cons a rest ih =>
    have ha := decodeActivity_as_dict a (h a (List.mem_cons_self a rest))
    have hrest := ih fun x hx => h x (List.mem_cons_of_mem a hx)
    simp only [loadFile, saveDoc, loadDoc, pyIterate, List.map_cons,
      Except.bind] at hrest ⊢
    simp [decodeList, ha, hrest, Except.bind]

/-! ## Reordering (`Activity.action_move_up` / `Activity.action_move_down`)

The activity at index `i` of the children list moves via the framework
`move_child`: the target child is resolved at its current index, the moving
child is detached, then reinserted before (respectively after) the target.
`is_first` / `is_last` guard the boundary cases. -/

/-- `Activity.action_move_up` acting on the ordered children list. -/
def action_move_up (l : List α) (i : Nat) : List α :=
  match l[i]? with
  | some x => if i = 0 then l else (l.eraseIdx i).insertIdx (i - 1) x
  | none => l

/-- `Activity.action_move_down` acting on the ordered children list. -/
def action_move_down (l : List α) (i : Nat) : List α :=
  match l[i]? with
  | some x => if i = l.length - 1 then l else (l.eraseIdx i).insertIdx (i + 1) x
  | none => l

theorem insertIdx_append_length (pre post : List α) (x : α) :
    (pre ++ post).insertIdx pre.length x = pre ++ x :: post := by
  induction pre with
  | nil => simp
  | cons a t ih => simp [List.insertIdx_succ_cons, ih]

theorem move_up_swap (l : List α) (i : Nat) (h1 : 0 < i) (h2 : i < l.length) :
    action_move_up l i =
      l.take (i - 1) ++ l.get ⟨i, h2⟩ :: l.get ⟨i - 1, by omega⟩ :: l.drop (i + 1) := by
  obtain ⟨k, rfl⟩ : ∃ k, i = k + 1 := ⟨i - 1, by omega⟩
  have hk : k < l.length := by omega
  have hx : l[k + 1]? = some (l.get ⟨k + 1, h2⟩) := by
    simp [List.getElem?_eq_getElem]
  have herase : l.eraseIdx (k + 1) = l.take k ++ l.get ⟨k, hk⟩ :: l.drop (k + 2) := by
    rw [List.eraseIdx_eq_take_drop_succ, List.take_succ,
      List.getElem?_eq_getElem hk]
    simp only [Option.toList_some, List.append_assoc, List.singleton_append,
      List.get_eq_getElem]
  have hlen : (l.take k).length = k := by
    simp [List.length_take]
    omega
  simp only [action_move_up, hx]
  rw [if_neg (by omega : ¬k + 1 = 0), herase]
  calc List.insertIdx (k + 1 - 1) (l.get ⟨k + 1, h2⟩)
        (l.take k ++ l.get ⟨k, hk⟩ :: l.drop (k + 2))
      = List.insertIdx (l.take k).length (l.get ⟨k + 1, h2⟩)
          (l.take k ++ l.get ⟨k, hk⟩ :: l.drop (k + 2)) := by
            rw [hlen]
            exact rfl
    _ = l.take k ++ l.get ⟨k + 1, h2⟩ :: l.get ⟨k, hk⟩ :: l.drop (k + 2) :=
        insertIdx_append_length _ _ _
    _ = l.take (k + 1 - 1) ++ l.get ⟨k + 1, h2⟩ :: l.get ⟨k + 1 - 1, by omega⟩ ::
          l.drop (k + 1 + 1) := rfl

theorem move_down_swap (l : List α) (i : Nat) (h2 : i + 1 < l.length) :
    action_move_down l i =
      l.take i ++ l.get ⟨i + 1, h2⟩ :: l.get ⟨i, by omega⟩ :: l.drop (i + 2) := by
  have hi : i < l.length := by omega
  have hx : l[i]? = some (l.get ⟨i, hi⟩) := by
    simp [List.getElem?_eq_getElem]
  have hdrop : l.drop (i + 1) = l.get ⟨i + 1, h2⟩ :: l.drop (i + 2) := by
    rw [List.drop_eq_getElem_cons h2]
    simp
  have herase : l.eraseIdx i
      = (l.take i ++ [l.get ⟨i + 1, h2⟩]) ++ l.drop (i + 2) := by
    rw [List.eraseIdx_eq_take_drop_succ, hdrop]
    simp only [List.append_assoc, List.singleton_append]
  have hlen : (l.take i ++ [l.get ⟨i + 1, h2⟩]).length = i + 1 := by
    simp [List.length_take]
    omega
  simp only [action_move_down, hx]
  rw [if_neg (by omega : ¬i = l.length - 1), herase]
  calc List.insertIdx (i + 1) (l.get ⟨i, hi⟩)
        ((l.take i ++ [l.get ⟨i + 1, h2⟩]) ++ l.drop (i + 2))
      = List.insertIdx (l.take i ++ [l.get ⟨i + 1, h2⟩]).length (l.get ⟨i, hi⟩)
          ((l.take i ++ [l.get ⟨i + 1, h2⟩]) ++ l.drop (i + 2)) := by rw [hlen]
    _ = (l.take i ++ [l.get ⟨i + 1, h2⟩]) ++ l.get ⟨i, hi⟩ :: l.drop (i + 2) :=
        insertIdx_append_length _ _ _
    _ = l.take i ++ l.get ⟨i + 1, h2⟩ :: l.get ⟨i, by omega⟩ :: l.drop (i + 2) := by
        simp only [List.append_assoc, List.singleton_append]

/-! ## Failure propagation in the loader

The decoder raises on any entry that is not a dictionary (Python subscripts
the iterated entry with a string key), so a document whose iteration yields
any non-object entry — including every key of a nonempty object and every
character of a nonempty string — makes the load fail, the error propagating
to the caller. -/

theorem decodeList_error_head {j : Json} {js : List Json} {e : String}
    (h : decodeActivity j = .error e) : decodeList (j :: js) = .error e := by
  simp [decodeList, h, Except.bind]

theorem decodeActivity_not_obj {j : Json} (h : ∀ fs, j ≠ Json.obj fs) :
    ∃ e, decodeActivity j = .error e := by
  cases j with
  | obj fs => exact absurd rfl (h fs)
  | null => exact ⟨_, rfl⟩
  | str s => exact ⟨_, rfl⟩
  | num q => exact ⟨_, rfl⟩
  | arr items => exact ⟨_, rfl⟩

theorem decodeList_error_of_bad_entry {j : Json} {items : List Json}
    (hmem : j ∈ items) (hbad : ∀ fs, j ≠ Json.obj fs) :
    ∃ e, decodeList items = .error e := by
  induction items with
  | nil => simp at hmem
  | cons x xs ih =>
    rcases List.mem_cons.mp hmem with rfl | hmem2
    · obtain ⟨e, he⟩ := decodeActivity_not_obj hbad
      exact ⟨e, decodeList_error_head he⟩
    · cases hx : decodeActivity x with
      | error e => exact ⟨e, decodeList_error_head hx⟩
      | ok a =>
        obtain ⟨e, he⟩ := ih hmem2
        exact ⟨e, by simp [decodeList, hx, he, Except.bind]⟩

/-! ## The main-screen state machine (`main_screen.py`)

`AppState` carries what the claims observe: the ordered in-memory activity
list (the mounted `Activity` children), the persisted document (`none` until
a file exists), the UI region the handlers of the application direct focus
to, and the transient notice.  `step` is the synchronous effect of each
handled event.

On delete, `Activity.drop_activity` posts `Dropped` and defers the actual
`self.remove` with `call_after_refresh` — the source comments that the
removal must be delayed until the message has made it out
(Textualize/textual issue 2017).  `Main.on_activity_dropped` therefore runs
`save_activity_list` while the widget is still mounted: the document written
by the delete still contains the dropped activity, and the deferred removal
is not followed by another save.  `Main.on_activity_dropped` saves and does
nothing else; no handler hands focus back to the type picker on a drop, so
`step` leaves the application-directed focus unchanged there (whatever the
widget framework does with the dangling focus is outside the embedding). -/

/-- The UI region that the application handlers have directed focus to. -/
inductive Focus where
  | typePicker
  | activityFocused (i : Nat)
  | filtersFocused
deriving DecidableEq

structure AppState where
  mem : List Activity
  disk : Option Json
  focus : Focus
  notice : Option String

/-- The handled events: the outcome of a fetch (with the clock reading used
for `chosen_at`), the two move actions, a delete, an activity deselect, and
the filter panel being hidden. -/
inductive Ev where
  | fetched (result : Except Unit BoredActivity) (now : PyDateTime)
  | moveUp (i : Nat)
  | moveDown (i : Nat)
  | delete (i : Nat)
  | deselect
  | filtersHidden

/-- The transient no-match notice of `Main.on_button_pressed`. -/
def noMatchNotice : String :=
  "Unable to find any activities that satisfy the current filters."

def step (s : AppState) : Ev → AppState
  | .fetched (.ok a) now =>
      let mem := (⟨a, now⟩ : Activity) :: s.mem
      { s with mem := mem, disk := some (saveDoc mem) }
  | .fetched (.error _) _ =>
      { s with notice := some noMatchNotice }
  | .moveUp i =>
      if i < s.mem.length ∧ i ≠ 0 then
        let mem := action_move_up s.mem i
        { s with mem := mem, disk := some (saveDoc mem) }
      else s
  | .moveDown i =>
      if i < s.mem.length ∧ i ≠ s.mem.length - 1 then
        let mem := action_move_down s.mem i
        { s with mem := mem, disk := some (saveDoc mem) }
      else s
  | .delete i =>
      if i < s.mem.length then
        { s with disk := some (saveDoc s.mem), mem := s.mem.eraseIdx i }
      else s
  | .deselect => { s with focus := .typePicker }
  | .filtersHidden => { s with focus := .typePicker }

/-! ## `Activity.calc_party` (`activity.py`, lines 124-126)

The function body is
`party_size = 9 if number < 10 else (10 if number == 10 else 10)`:
evaluating the conditional first resolves the name `number` against the
local scope (which binds only the parameter `party`), then the module
globals, then the builtins.  No scope binds `number`, so every call raises
`NameError` before anything else runs. -/

inductive PyErr where
  | nameError (name : String)
  | typeError (msg : String)
deriving DecidableEq

/-- The names bound at module level in `activity.py`: the imports and the
two classes (plus the interpreter-provided dunder names). -/
def activityModuleGlobals : List String :=
  ["Any", "cast", "datetime", "asdict", "open_url", "BoredActivity",
   "ComposeResult", "Binding", "Widget", "Static", "Button", "Horizontal",
   "Message", "MouseDown", "Text", "focus_within", "WebLink", "Activity",
   "__name__", "__doc__", "__file__", "__builtins__"]

/-- Python builtin names a numeric expression could draw on; `number` is not
among the builtins either. -/
def pyBuiltinNames : List String :=
  ["abs", "bool", "dict", "divmod", "enumerate", "float", "int", "len",
   "list", "max", "min", "pow", "print", "range", "round", "set", "str",
   "sum", "tuple", "type", "zip"]

/-- Name resolution for a read inside `calc_party`: the local scope binds
only the parameter `party`, whose value (whatever Python object the widget
held) is modelled as a JSON-representable value; the module globals and the
builtins do not contain `number` at all. -/
def calc_party_env (party : Json) (name : String) : Option Json :=
  if name = "party" then some party else none

/-- The body of `Activity.calc_party` over an explicit environment for its
free names: resolve `number`; on failure the conditional raises `NameError`.
Were `number` bound, `number < 10` would compare it with an integer — fine
for a Python number, a `TypeError` for any other value — and the gauge
string of the source would be produced. -/
def calc_party_body (env : String → Option Json) : Except PyErr String :=
  match env "number" with
  | none => .error (.nameError "number")
  | some number =>
      match number with
      | .num q =>
          let party_size : Int := if q < 10 then 9 else if q = 10 then 10 else 10
          .ok (String.mk (List.replicate party_size.toNat '*') ++
               (if party_size > 10 then "+"
                else String.mk (List.replicate (10 - party_size).toNat 'o')))
      | _ => .error (.typeError "unsupported comparison with int")

/-- `Activity.calc_party` as called with the participant-count value. -/
def calc_party (party : Json) : Except PyErr String :=
  calc_party_body (calc_party_env party)

/-- The participant-count gauge of `Activity.compose`: the rendered string
interpolates `calc_party(self.activity.participants)`, so the failure of
`calc_party` aborts the rendering. -/
def composeParticipantsGauge (a : BoredActivity) : Except PyErr String :=
  calc_party a.participants

/-! ## Concrete sample values used by the witnesses -/

def sampleDate : PyDateTime := ⟨2023, 2, 25, 14, 30, 59, 123456⟩

def sampleDate2 : PyDateTime := ⟨2024, 12, 31, 23, 59, 59, 0⟩

def sampleBored : BoredActivity :=
  ⟨.str "Learn a new programming language", .education, .num (mkRat 1 1),
   .num (mkRat 1 10), .num (mkRat 1 4), .str "https://example.com"⟩

def sampleBored2 : BoredActivity :=
  ⟨.str "Take a bath", .relaxation, .num (mkRat 1 1), .num (mkRat 0 1),
   .num (mkRat 1 10), .null⟩

def sampleActivity : Activity := ⟨sampleBored, sampleDate⟩

def sampleActivity2 : Activity := ⟨sampleBored2, sampleDate2⟩

/-- Raw filter entries that all fail to yield a value: participants `0`, a
blank minimum price, a non-numeric maximum price, a nonpositive minimum
accessibility and a non-numeric maximum accessibility. -/
def sampleFilters : FilterInputs := ⟨"0", "", "abc", "-0.5", "2,5"⟩

/-! ## Helper lemmas for the filter claims -/

theorem value_of_eq_none {raw : String}
    (h : pyFloat? (pyStrip raw.data) = none ∨
      ∃ v, pyFloat? (pyStrip raw.data) = some v ∧ v ≤ 0) :
    Filters.value_of raw = none := by
  rcases h with h | ⟨v, hv, hle⟩
  · simp [Filters.value_of, h]
  · simp [Filters.value_of, hv, hle]

theorem min_max_fst_none {minRaw maxRaw : String}
    (h : Filters.value_of minRaw = none) :
    (Filters._min_max_value minRaw maxRaw).1 = none := by
  simp only [Filters._min_max_value, h]
  cases h2 : Filters.clamp (Filters.value_of maxRaw) 0 1 <;>
    simp [Filters.clamp]

theorem min_max_snd_none {minRaw maxRaw : String}
    (h : Filters.value_of maxRaw = none) :
    (Filters._min_max_value minRaw maxRaw).2 = none := by
  simp only [Filters._min_max_value, h]
  cases h2 : Filters.clamp (Filters.value_of minRaw) 0 1 <;>
    simp [Filters.clamp]

theorem participants_eq_none {f : FilterInputs}
    (h : pyInt? (pyStrip f.participants.data) = none ∨
      pyInt? (pyStrip f.participants.data) = some 0) :
    Filters.participants f = none := by
  rcases h with h | h <;> simp [Filters.participants, h]

theorem move_up_first_noop (l : List Activity) : action_move_up l 0 = l := by
  unfold action_move_up
  cases h : l[0]? <;> simp

theorem move_down_last_noop (l : List Activity) :
    action_move_down l (l.length - 1) = l := by
  unfold action_move_down
  cases h : l[l.length - 1]? <;> simp

/-! ## The claims -/

/-- C1: saving any valid ordered activity list to the persisted document and
loading it back reproduces the list exactly — same order, every field equal,
and the chosen-at timestamp preserved to sub-second (microsecond)
precision. -/
theorem C1_save_load_roundtrip (L : List Activity)
    (h : ∀ a ∈ L, a.validDate = true) :
    loadFile (some (saveDoc L)) = .ok L :=
  loadFile_saveDoc L h

/-- Witness for C1 at a concrete two-element list, with a populated and a
zero microsecond field, a present and an absent link. -/
theorem C1_witness :
    (∀ a ∈ [sampleActivity, sampleActivity2], a.validDate = true) ∧
    loadFile (some (saveDoc [sampleActivity, sampleActivity2]))
      = .ok [sampleActivity, sampleActivity2] :=
  ⟨by decide, C1_save_load_roundtrip [sampleActivity, sampleActivity2] (by decide)⟩

/-- C2: `action_move_up` on the first activity and `action_move_down` on the
last are no-ops for every list; from any other position the activity and its
neighbour (previous for up, next for down) exchange positions exactly, every
other element unchanged.  The exchange clauses hold at every admissible
position, including a move down from the head. -/
theorem C2_move_exchange (l : List Activity) (i : Nat) :
    action_move_up l 0 = l ∧
    action_move_down l (l.length - 1) = l ∧
    (∀ (h1 : 0 < i) (h2 : i < l.length),
      action_move_up l i
        = l.take (i - 1) ++ l.get ⟨i, h2⟩ :: l.get ⟨i - 1, by omega⟩ ::
            l.drop (i + 1)) ∧
    ∀ h3 : i + 1 < l.length,
      action_move_down l i
        = l.take i ++ l.get ⟨i + 1, h3⟩ :: l.get ⟨i, by omega⟩ :: l.drop (i + 2) :=
  ⟨move_up_first_noop l, move_down_last_noop l,
   fun h1 h2 => move_up_swap l i h1 h2, fun h3 => move_down_swap l i h3⟩

/-- Witness for C2: boundary no-ops on a singleton and a three-element list,
the move-up and move-down exchanges at an interior position, and the
move-down exchange at the head of a two-element list. -/
theorem C2_witness :
    action_move_up [sampleActivity] 0 = [sampleActivity] ∧
    action_move_down [sampleActivity] 0 = [sampleActivity] ∧
    action_move_up [sampleActivity, sampleActivity2, sampleActivity] 0
      = [sampleActivity, sampleActivity2, sampleActivity] ∧
    action_move_down [sampleActivity, sampleActivity2, sampleActivity] 2
      = [sampleActivity, sampleActivity2, sampleActivity] ∧
    action_move_up [sampleActivity, sampleActivity2, sampleActivity] 1
      = [sampleActivity2, sampleActivity, sampleActivity] ∧
    action_move_down [sampleActivity, sampleActivity2, sampleActivity] 1
      = [sampleActivity, sampleActivity, sampleActivity2] ∧
    action_move_down [sampleActivity, sampleActivity2] 0
      = [sampleActivity2, sampleActivity] := by
  obtain ⟨hs1, hs2, -, -⟩ := C2_move_exchange [sampleActivity] 0
  obtain ⟨hfirst, hlast, hup, hdown⟩ :=
    C2_move_exchange [sampleActivity, sampleActivity2, sampleActivity] 1
  obtain ⟨-, -, -, hpair⟩ := C2_move_exchange [sampleActivity, sampleActivity2] 0
  refine ⟨hs1, by simpa using hs2, hfirst, by simpa using hlast,
    by simpa using hup (by decide) (by decide),
    by simpa using hdown (by decide), by simpa using hpair (by decide)⟩

/-- C3 counterexample: deleting the only activity leaves the in-memory list
empty but writes the pre-removal list — the document saved by the drop
handler still contains the deleted activity, because `drop_activity` defers
the removal until after the `Dropped` message (and hence the save) has been
processed. -/
theorem C3_counterexample :
    (step ⟨[sampleActivity], some (saveDoc [sampleActivity]), .typePicker, none⟩
        (.delete 0)).mem = [] ∧
    (step ⟨[sampleActivity], some (saveDoc [sampleActivity]), .typePicker, none⟩
        (.delete 0)).disk = some (saveDoc [sampleActivity]) ∧
    saveDoc [sampleActivity] ≠ saveDoc [] := by
  refine ⟨rfl, rfl, ?_⟩
  simp [saveDoc]

/-- C3 amended: a successful fetch and an effective move rewrite the
document to match the new in-memory order (a boundary move changes nothing
and writes nothing, preserving the match); a delete writes the pre-removal
list — the save triggered by the drop event runs before the deferred
removal, so immediately after a delete the dropped activity is still in the
persisted document. -/
theorem C3_persistence (s : AppState) (a : BoredActivity) (now : PyDateTime)
    (i : Nat) :
    (step s (.fetched (.ok a) now)).disk
        = some (saveDoc ((step s (.fetched (.ok a) now)).mem)) ∧
    (s.disk = some (saveDoc s.mem) →
      (step s (.moveUp i)).disk = some (saveDoc ((step s (.moveUp i)).mem)) ∧
      (step s (.moveDown i)).disk = some (saveDoc ((step s (.moveDown i)).mem))) ∧
    (i < s.mem.length →
      (step s (.delete i)).mem = s.mem.eraseIdx i ∧
      (step s (.delete i)).disk = some (saveDoc s.mem)) := by
  refine ⟨rfl, fun hinv => ⟨?_, ?_⟩, fun hi => ?_⟩
  · simp only [step]
    split
    · rfl
    · exact hinv
  · simp only [step]
    split
    · rfl
    · exact hinv
  · simp only [step]
    rw [if_pos hi]
    exact ⟨rfl, rfl⟩

/-- Witness for C3 at concrete states: the fetch and move clauses with the
invariant discharged, and the delete clause at a one-element list. -/
theorem C3_witness :
    (step ⟨[sampleActivity2], some (saveDoc [sampleActivity2]), .typePicker, none⟩
        (.delete 0)).mem = [] ∧
    (step ⟨[sampleActivity2], some (saveDoc [sampleActivity2]), .typePicker, none⟩
        (.delete 0)).disk = some (saveDoc [sampleActivity2]) ∧
    (step ⟨[sampleActivity2], some (saveDoc [sampleActivity2]), .typePicker, none⟩
        (.moveUp 0)).disk
      = some (saveDoc ((step ⟨[sampleActivity2], some (saveDoc [sampleActivity2]),
          .typePicker, none⟩ (.moveUp 0)).mem)) := by
  obtain ⟨-, hmove, hdel⟩ :=
    C3_persistence ⟨[sampleActivity2], some (saveDoc [sampleActivity2]),
      .typePicker, none⟩ sampleBored sampleDate 0
  obtain ⟨hdel1, hdel2⟩ := hdel (by decide)
  exact ⟨by simpa using hdel1, hdel2, (hmove rfl).1⟩

/-- C4: a fetch whose lookup reports the no-match outcome leaves the
in-memory list, the persisted document and the focus unchanged — no
insertion, no write — and only sets the transient notice. -/
theorem C4_no_match_unchanged (s : AppState) (e : Unit) (now : PyDateTime) :
    (step s (.fetched (.error e) now)).mem = s.mem ∧
    (step s (.fetched (.error e) now)).disk = s.disk ∧
    (step s (.fetched (.error e) now)).focus = s.focus ∧
    (step s (.fetched (.error e) now)).notice = some noMatchNotice :=
  ⟨rfl, rfl, rfl, rfl⟩

/-- C5: whenever both the min and the max entry of a ranged filter yield
effective (parsed, clamped) values, a transposed pair is returned swapped,
and any returned pair with both components present satisfies min ≤ max. -/
theorem C5_ranged_pair_swap (minRaw maxRaw : String) (a b : ℚ)
    (hmin : Filters.clamp (Filters.value_of minRaw) 0 1 = some a)
    (hmax : Filters.clamp (Filters.value_of maxRaw) 0 1 = some b) :
    (b < a → Filters._min_max_value minRaw maxRaw = (some b, some a)) ∧
    (¬b < a → Filters._min_max_value minRaw maxRaw = (some a, some b)) ∧
    ∀ x y : ℚ, (Filters._min_max_value minRaw maxRaw).1 = some x →
      (Filters._min_max_value minRaw maxRaw).2 = some y → x ≤ y := by
  have hmm : Filters._min_max_value minRaw maxRaw
      = if b < a then (some b, some a) else (some a, some b) := by
    simp only [Filters._min_max_value, hmin, hmax]
  by_cases hba : b < a
  · rw [if_pos hba] at hmm
    refine ⟨fun _ => hmm, fun hc => absurd hba hc, ?_⟩
    intro x y hx hy
    rw [hmm] at hx hy
    simp only [Option.some.injEq] at hx hy
    rw [← hx, ← hy]
    exact hba.le
  · rw [if_neg hba] at hmm
    refine ⟨fun hc => absurd hc hba, fun _ => hmm, ?_⟩
    intro x y hx hy
    rw [hmm] at hx hy
    simp only [Option.some.injEq] at hx hy
    rw [← hx, ← hy]
    exact not_lt.mp hba

/-- Witness for C5: entries `0.9` and `0.4` both yield values, are
transposed, and come back swapped. -/
theorem C5_witness :
    Filters.clamp (Filters.value_of "0.9") 0 1 = some (mkRat 9 10) ∧
    Filters.clamp (Filters.value_of "0.4") 0 1 = some (mkRat 2 5) ∧
    Filters._min_max_value "0.9" "0.4" = (some (mkRat 2 5), some (mkRat 9 10)) := by
  have h1 : Filters.clamp (Filters.value_of "0.9") 0 1 = some (mkRat 9 10) := by
    decide
  have h2 : Filters.clamp (Filters.value_of "0.4") 0 1 = some (mkRat 2 5) := by
    decide
  obtain ⟨hswap, -, -⟩ := C5_ranged_pair_swap "0.9" "0.4" (mkRat 9 10) (mkRat 2 5) h1 h2
  exact ⟨h1, h2, hswap (by decide)⟩

/-- C6: a ranged entry that is blank, non-numeric or parses to a value at
most zero contributes no min/max constraint to the request options, and a
participants entry that is blank, non-numeric or zero contributes no
participants constraint. -/
theorem C6_absent_constraints (btn : Option String) (f : FilterInputs) :
    ((pyFloat? (pyStrip f.min_price.data) = none ∨
        (∃ v, pyFloat? (pyStrip f.min_price.data) = some v ∧ v ≤ 0)) →
      (buildOptions btn f).min_price = none) ∧
    ((pyFloat? (pyStrip f.max_price.data) = none ∨
        (∃ v, pyFloat? (pyStrip f.max_price.data) = some v ∧ v ≤ 0)) →
      (buildOptions btn f).max_price = none) ∧
    ((pyFloat? (pyStrip f.min_accessibility.data) = none ∨
        (∃ v, pyFloat? (pyStrip f.min_accessibility.data) = some v ∧ v ≤ 0)) →
      (buildOptions btn f).min_accessibility = none) ∧
    ((pyFloat? (pyStrip f.max_accessibility.data) = none ∨
        (∃ v, pyFloat? (pyStrip f.max_accessibility.data) = some v ∧ v ≤ 0)) →
      (buildOptions btn f).max_accessibility = none) ∧
    ((pyInt? (pyStrip f.participants.data) = none ∨
        pyInt? (pyStrip f.participants.data) = some 0) →
      (buildOptions btn f).participants = none) := by
  refine ⟨fun h => ?_, fun h => ?_, fun h => ?_, fun h => ?_, fun h => ?_⟩
  · simpa [buildOptions, Filters.price] using
      @min_max_fst_none f.min_price f.max_price (value_of_eq_none h)
  · simpa [buildOptions, Filters.price] using
      @min_max_snd_none f.min_price f.max_price (value_of_eq_none h)
  · simpa [buildOptions, Filters.accessibility] using
      @min_max_fst_none f.min_accessibility f.max_accessibility (value_of_eq_none h)
  · simpa [buildOptions, Filters.accessibility] using
      @min_max_snd_none f.min_accessibility f.max_accessibility (value_of_eq_none h)
  · simpa [buildOptions] using participants_eq_none h

/-- Witness for C6: with participants `0`, a blank minimum price, a
non-numeric maximum price, a nonpositive minimum accessibility and a
non-numeric maximum accessibility, no constraint is generated. -/
theorem C6_witness :
    (buildOptions (some "education") sampleFilters).participants = none ∧
    (buildOptions (some "education") sampleFilters).min_price = none ∧
    (buildOptions (some "education") sampleFilters).max_price = none ∧
    (buildOptions (some "education") sampleFilters).min_accessibility = none ∧
    (buildOptions (some "education") sampleFilters).max_accessibility = none := by
  obtain ⟨h1, h2, h3, h4, h5⟩ := C6_absent_constraints (some "education") sampleFilters
  exact ⟨h5 (Or.inr (by decide)), h1 (Or.inl (by decide)), h2 (Or.inl (by decide)),
    h3 (Or.inr ⟨-(mkRat 1 2), by decide, by decide⟩), h4 (Or.inl (by decide))⟩

/-- C7 counterexample: deleting the focused activity does not return focus
to the type picker — `Main.on_activity_dropped` only saves, no handler
restores focus on a drop — so from a state with the activity focused the
delete leaves the focus claim false. -/
theorem C7_counterexample :
    (step ⟨[sampleActivity], some (saveDoc [sampleActivity]),
        .activityFocused 0, none⟩ (.delete 0)).mem = [] ∧
    (step ⟨[sampleActivity], some (saveDoc [sampleActivity]),
        .activityFocused 0, none⟩ (.delete 0)).focus = .activityFocused 0 ∧
    Focus.activityFocused 0 ≠ Focus.typePicker := by
  refine ⟨rfl, rfl, by decide⟩

/-- C7 amended: deselecting an activity and hiding the filter panel return
focus ownership to the type picker from every state; deleting the focused
activity does not change the application-directed focus (no handler restores
it on a drop). -/
theorem C7_focus_transitions (s : AppState) (i : Nat) :
    (step s .deselect).focus = .typePicker ∧
    (step s .filtersHidden).focus = .typePicker ∧
    (step s (.delete i)).focus = s.focus := by
  refine ⟨rfl, rfl, ?_⟩
  simp only [step]
  split <;> rfl

/-- C8 counterexample: the `for` loop of `load_activity_list` iterates
whatever `loads` returned, so the malformed documents `{}` (the empty
object) and `""` (the empty string) iterate no entries and load silently as
the empty list — no error is raised, contrary to the claim. -/
theorem C8_counterexample :
    loadFile (some (Json.obj [])) = .ok [] ∧
    loadFile (some (Json.str "")) = .ok [] :=
  ⟨rfl, rfl⟩

/-- C8 amended: a missing persisted file loads as the empty list, and so do
the empty array and — silently, against the original claim — the empty
object and the empty string, whose iteration yields no entries.  The other
malformed shapes raise an error surfaced to the caller: a document that is
not iterable (`null` or a number), a nonempty object or nonempty string
(whose iterated entries are strings, not activity objects), and any array
containing a non-object entry. -/
theorem C8_load_behaviour (q : ℚ) (s : String) (p : String × Json)
    (fields : List (String × Json)) (j : Json) (items : List Json) :
    loadFile none = .ok [] ∧
    loadFile (some (Json.arr [])) = .ok [] ∧
    loadFile (some (Json.obj [])) = .ok [] ∧
    loadFile (some (Json.str "")) = .ok [] ∧
    (∃ e, loadFile (some Json.null) = .error e) ∧
    (∃ e, loadFile (some (Json.num q)) = .error e) ∧
    (s.data ≠ [] → ∃ e, loadFile (some (Json.str s)) = .error e) ∧
    (∃ e, loadFile (some (Json.obj (p :: fields))) = .error e) ∧
    (j ∈ items → (∀ fs, j ≠ Json.obj fs) →
      ∃ e, loadFile (some (Json.arr items)) = .error e) := by
    refine ⟨rfl, rfl, rfl, rfl, ⟨_, rfl⟩, ⟨_, rfl⟩, ?_, ?_, ?_⟩
    · intro hne
      cases hcs : s.data with
      | nil => exact absurd hcs hne
      | cons c cs =>
        obtain ⟨e, he⟩ := decodeList_error_of_bad_entry
          (show Json.str ⟨[c]⟩ ∈ (c :: cs).map (fun ch => Json.str ⟨[ch]⟩) by
            rw [List.map_cons]
            exact List.mem_cons_self _ _)
          (fun fs h => Json.noConfusion h)
        exact ⟨e, by simp only [loadFile, loadDoc, pyIterate, hcs, Except.bind]; exact he⟩
    · obtain ⟨e, he⟩ := decodeList_error_of_bad_entry
        (show Json.str p.1 ∈ (p :: fields).map (fun f => Json.str f.1) by
          rw [List.map_cons]
          exact List.mem_cons_self _ _)
        (fun fs h => Json.noConfusion h)
      exact ⟨e, by simp only [loadFile, loadDoc, pyIterate, Except.bind]; exact he⟩
    · intro hmem hbad
      obtain ⟨e, he⟩ := decodeList_error_of_bad_entry hmem hbad
      exact ⟨e, by simp only [loadFile, loadDoc, pyIterate, Except.bind]; exact he⟩

/-- Witness for C8: concrete error cases — a nonempty string document, a
nonempty object document, and an array containing `null`. -/
theorem C8_witness :
    loadFile none = .ok ([] : List Activity) ∧
    (∃ e, loadFile (some (Json.str "xy")) = .error e) ∧
    (∃ e, loadFile (some (Json.obj [("a", Json.null)])) = .error e) ∧
    (∃ e, loadFile (some (Json.arr [Json.null])) = .error e) := by
  obtain ⟨h1, h2, h3, h4, h5, h6, h7, h8, h9⟩ :=
    C8_load_behaviour (mkRat 3 1) "xy" ("a", Json.null) [] Json.null [Json.null]
  exact ⟨h1, h7 (by decide), h8,
    h9 (List.mem_cons_self Json.null []) (fun fs h => Json.noConfusion h)⟩

/-- C9: a successful fetch inserts the new activity at the head of the list
and persists the new list; from an empty list this yields the one-element
list both in memory and on disk, with the activity at the head. -/
theorem C9_fetch_success_inserts_head (s : AppState) (a : BoredActivity)
    (now : PyDateTime) :
    (step s (.fetched (.ok a) now)).mem = (⟨a, now⟩ : Activity) :: s.mem ∧
    (step s (.fetched (.ok a) now)).disk
      = some (saveDoc ((⟨a, now⟩ : Activity) :: s.mem)) ∧
    (s.mem = [] →
      (step s (.fetched (.ok a) now)).mem = [(⟨a, now⟩ : Activity)] ∧
      (step s (.fetched (.ok a) now)).disk
        = some (saveDoc [(⟨a, now⟩ : Activity)])) := by
  refine ⟨rfl, rfl, fun hempty => ?_⟩
  constructor <;> simp [step, hempty]

/-- Witness for C9: a fetch of the education sample activity from the empty
initial state. -/
theorem C9_witness :
    (step ⟨[], none, .typePicker, none⟩
        (.fetched (.ok sampleBored) sampleDate)).mem = [sampleActivity] ∧
    (step ⟨[], none, .typePicker, none⟩
        (.fetched (.ok sampleBored) sampleDate)).disk
      = some (saveDoc [sampleActivity]) := by
  have h := C9_fetch_success_inserts_head ⟨[], none, .typePicker, none⟩
    sampleBored sampleDate
  exact h.2.2 rfl

/-- C10: `calc_party` reads the name `number`, which is bound neither in its
local scope (the environment binds only `party`) nor in the module globals
nor the builtins, so every call raises `NameError` and the participant-count
gauge of `compose` never renders for any activity. -/
theorem C10_calc_party_name_error :
    activityModuleGlobals.contains "number" = false ∧
    pyBuiltinNames.contains "number" = false ∧
    (∀ party : Json, calc_party_env party "number" = none) ∧
    (∀ party : Json, calc_party party = .error (.nameError "number")) ∧
    (∀ a : BoredActivity, composeParticipantsGauge a = .error (.nameError "number")) :=
  ⟨by decide, by decide, fun _ => rfl, fun _ => rfl, fun _ => rfl⟩
